import Mathlib

/-!
Verification model of the image-auth credential resolution core of the
baremetal-operator repository:

* `pkg/secretutils` (docker-config credential extraction): `extractRegistryHost`,
  `parseDockerConfigJSON`, `parseDockerConfig`, `findAuthConfig`,
  `extractCredentials`, `ExtractRegistryCredentials`.
* `pkg/imageauthvalidator/validator.go`: the `Validate` state machine, `isOCI`,
  `isAllowedDockerConfigType`, and the `Result` record.

Modelling conventions:

* Go strings are byte sequences; all strings appearing in this code are valid
  UTF-8, so a Go string is modelled as its sequence of unicode code points,
  `Str := List Char`.  Go string equality, concatenation and prefix tests
  coincide with the corresponding list operations under this model.
* The raw `[]byte` values flowing through base64 are modelled as `List Nat`
  with every byte `< 256`; `utf8Bytes` is the UTF-8 encoding of a string into
  bytes, mirroring Go's `[]byte(s)` conversion.
* Fallible Go functions returning `(T, error)` are modelled with `Res T`
  (`ok` a value or `err` an error-message string).
* External standard-library calls (`encoding/json.Unmarshal`, `net/url.Parse`,
  `encoding/base64`) are not repository code.  base64 and the authority
  parsing of `url.Parse` are implemented concretely below, following the
  documented behaviour the repository relies on (standard padded base64;
  authority = substring up to the first `/`, `?` or `#`, userinfo before the
  last `@`, port = digits after the last `:`).  `json.Unmarshal` is modelled
  as an oracle attached to the document bytes (`RawDoc`), carrying the
  unmarshal outcome of the bytes under each of the two document shapes.
-/

/-- A Go string, modelled as its list of unicode code points. -/
abbrev Str := List Char

/-- Inject a Lean string literal into the model. -/
def str (s : String) : Str := s.data

/-- Result of a fallible Go call `(T, error)`: a value or an error message. -/
inductive Res (α : Type) where
  | ok (val : α)
  | err (msg : Str)
deriving DecidableEq

/-! ## Standard base64 (`encoding/base64.StdEncoding`) over byte lists -/

/-- The standard base64 alphabet. -/
def b64Alphabet : Str :=
  str "ABCDEFGHIJKLMNOPQRSTUVWXYZabcdefghijklmnopqrstuvwxyz0123456789+/"

/-- Character of a 6-bit group. -/
def b64c (n : Nat) : Char := b64Alphabet.getD n 'A'

/-- 6-bit value of an alphabet character (`none` for characters outside the
alphabet, in particular for the padding character). -/
def b64v (c : Char) : Option Nat := b64Alphabet.findIdx? (fun d => d = c)

/-- `base64.StdEncoding.EncodeToString` over a byte list. -/
def encodeBase64 : List Nat → List Char
  | [] => []
  | [a] => [b64c (a / 4), b64c (a % 4 * 16), '=', '=']
  | [a, b] => [b64c (a / 4), b64c (a % 4 * 16 + b / 16), b64c (b % 16 * 4), '=']
  | a :: b :: c :: rest =>
      b64c (a / 4) :: b64c (a % 4 * 16 + b / 16) :: b64c (b % 16 * 4 + c / 64) ::
        b64c (c % 64) :: encodeBase64 rest

/-- `base64.StdEncoding.DecodeString` over the model: standard padded base64,
rejecting any input that is not a sequence of 4-character groups of alphabet
characters with optional final padding.  (Like Go's non-strict decoder it does
not insist that unused trailing bits are zero.) -/
def decodeBase64 : List Char → Res (List Nat)
  | [] => .ok []
  | c1 :: c2 :: c3 :: c4 :: rest =>
    match b64v c1, b64v c2 with
    | some v1, some v2 =>
      if c3 = '=' then
        if c4 = '=' then
          if rest = [] then .ok [v1 * 4 + v2 / 16]
          else .err (str "illegal base64 data")
        else .err (str "illegal base64 data")
      else
        match b64v c3 with
        | some v3 =>
          if c4 = '=' then
            if rest = [] then .ok [v1 * 4 + v2 / 16, v2 % 16 * 16 + v3 / 4]
            else .err (str "illegal base64 data")
          else
            match b64v c4 with
            | some v4 =>
              match decodeBase64 rest with
              | .ok ds =>
                  .ok ((v1 * 4 + v2 / 16) :: (v2 % 16 * 16 + v3 / 4) ::
                    (v3 % 4 * 64 + v4) :: ds)
              | .err e => .err e
            | none => .err (str "illegal base64 data")
        | none => .err (str "illegal base64 data")
    | _, _ => .err (str "illegal base64 data")
  | _ => .err (str "illegal base64 data")

theorem b64v_b64c : ∀ x, x < 64 → b64v (b64c x) = some x := by decide

theorem b64c_ne_pad : ∀ x, x < 64 → b64c x ≠ '=' := by decide

/-- Decoding inverts encoding on byte lists. -/
theorem decodeBase64_encodeBase64 (bs : List Nat) (h : ∀ b ∈ bs, b < 256) :
    decodeBase64 (encodeBase64 bs) = .ok bs := by
  induction bs using encodeBase64.induct with
  | case1 => simp [encodeBase64, decodeBase64]
  | case2 a =>
      have ha : a < 256 := h a (by simp)
      have h1 : a / 4 < 64 := by omega
      have h2 : a % 4 * 16 < 64 := by omega
      simp [encodeBase64, decodeBase64, b64v_b64c _ h1, b64v_b64c _ h2]
      omega
  | case3 a b =>
      have ha : a < 256 := h a (by simp)
      have hb : b < 256 := h b (by simp)
      have h1 : a / 4 < 64 := by omega
      have h2 : a % 4 * 16 + b / 16 < 64 := by omega
      have h3 : b % 16 * 4 < 64 := by omega
      simp [encodeBase64, decodeBase64, b64v_b64c _ h1, b64v_b64c _ h2,
        b64v_b64c _ h3, b64c_ne_pad _ h3]
      omega
  | case4 a b c rest ih =>
      have ha : a < 256 := h a (by simp)
      have hb : b < 256 := h b (by simp)
      have hc : c < 256 := h c (by simp)
      have hrest : ∀ x ∈ rest, x < 256 := fun x hx => h x (by simp [hx])
      have h1 : a / 4 < 64 := by omega
      have h2 : a % 4 * 16 + b / 16 < 64 := by omega
      have h3 : b % 16 * 4 + c / 64 < 64 := by omega
      have h4 : c % 64 < 64 := by omega
      simp [encodeBase64, decodeBase64, b64v_b64c _ h1, b64v_b64c _ h2,
        b64v_b64c _ h3, b64v_b64c _ h4, b64c_ne_pad _ h3, b64c_ne_pad _ h4,
        ih hrest]
      omega

/-! ## UTF-8 encoding of a string into bytes (Go's byte-level string view) -/

/-- UTF-8 encoding of one code point. -/
def utf8EncodeCp (n : Nat) : List Nat :=
  if n < 128 then [n]
  else if n < 2048 then [192 + n / 64, 128 + n % 64]
  else if n < 65536 then [224 + n / 4096, 128 + n / 64 % 64, 128 + n % 64]
  else [240 + n / 262144, 128 + n / 4096 % 64, 128 + n / 64 % 64, 128 + n % 64]

/-- `[]byte(s)`: the UTF-8 bytes of a string. -/
def utf8Bytes (s : Str) : List Nat := s.flatMap (fun c => utf8EncodeCp c.toNat)

theorem char_toNat_lt (c : Char) : c.toNat < 1114112 := by
  have h := c.valid
  rcases h with h | h
  · exact Nat.lt_trans h (by norm_num)
  · exact h.2

theorem utf8EncodeCp_lt (n : Nat) (hn : n < 1114112) :
    ∀ b ∈ utf8EncodeCp n, b < 256 := by
  intro b hb
  unfold utf8EncodeCp at hb
  split at hb
  · simp at hb; omega
  · split at hb
    · simp at hb; omega
    · split at hb
      · simp at hb; omega
      · simp at hb; omega

theorem utf8Bytes_lt (s : Str) : ∀ b ∈ utf8Bytes s, b < 256 := by
  intro b hb
  simp only [utf8Bytes, List.mem_flatMap] at hb
  obtain ⟨c, _, hbc⟩ := hb
  exact utf8EncodeCp_lt c.toNat (char_toNat_lt c) b hbc

/-- A colon byte appears in the UTF-8 encoding of a code point only for the
colon code point itself. -/
theorem utf8EncodeCp_colon (n : Nat) (hb : 58 ∈ utf8EncodeCp n) : n = 58 := by
  unfold utf8EncodeCp at hb
  split at hb
  · simp at hb; omega
  · split at hb
    · simp at hb; omega
    · split at hb
      · simp at hb; omega
      · simp at hb; omega

theorem char_eq_of_toNat_eq {a b : Char} (h : a.toNat = b.toNat) : a = b := by
  cases a; cases b
  cases UInt32.toNat.inj h
  rfl

theorem utf8Bytes_no_colon (s : Str) (h : ':' ∉ s) : 58 ∉ utf8Bytes s := by
  intro hmem
  simp only [utf8Bytes, List.mem_flatMap] at hmem
  obtain ⟨c, hc, hbc⟩ := hmem
  have hc58 : c.toNat = 58 := utf8EncodeCp_colon c.toNat hbc
  have hcc : c = ':' := char_eq_of_toNat_eq (by rw [hc58]; rfl)
  exact h (hcc ▸ hc)

/-- `strings.SplitN(s, ":", 2)` at the byte level: split at the first colon
byte; `none` when no colon occurs (one part only). -/
def splitN2Colon : List Nat → Option (List Nat × List Nat)
  | [] => none
  | b :: bs =>
      if b = 58 then some ([], bs)
      else (splitN2Colon bs).map (fun q => (b :: q.1, q.2))

theorem splitN2Colon_append (xs ys : List Nat) (h : 58 ∉ xs) :
    splitN2Colon (xs ++ 58 :: ys) = some (xs, ys) := by
  induction xs with
  | nil => simp [splitN2Colon]
  | cons x xs ih =>
      have hx : x ≠ 58 := by intro hx; exact h (by simp [hx])
      have hxs : 58 ∉ xs := fun hm => h (by simp [hm])
      simp [splitN2Colon, hx, ih hxs]

/-! ## Data model (`pkg/secretutils/dockerconfig.go`) -/

/-- `DockerAuthConfig`: authorization information for a docker registry. -/
structure DockerAuthConfig where
  username : Str
  password : Str
  auth : Str
  email : Str
deriving DecidableEq

/-- A Go `map[string]DockerAuthConfig`, as an association list with distinct
keys (Go map keys are unique; iteration order is irrelevant here because the
code only performs point lookups). -/
abbrev AuthMap := List (Str × DockerAuthConfig)

/-- `DockerConfigJSON`: the `kubernetes.io/dockerconfigjson` document shape. -/
structure DockerConfigJSON where
  auths : AuthMap
deriving DecidableEq

/-- `DockerConfig`: the legacy `kubernetes.io/dockercfg` document shape. -/
abbrev DockerConfig := AuthMap

/-- Raw document bytes, modelled by their `json.Unmarshal` outcomes under each
of the two document shapes (`json.Unmarshal` is an external library call; the
oracle records, for one fixed byte string, the value or error produced when
unmarshalling it into each target type). -/
structure RawDoc where
  asConfigJSON : Res DockerConfigJSON
  asConfig : Res DockerConfig
deriving DecidableEq

/-- A Kubernetes secret: its declared type and its data map (string key to
raw bytes). -/
structure Secret where
  type : Str
  data : List (Str × RawDoc)
deriving DecidableEq

/-- `corev1.DockerConfigJsonKey`. -/
def dockerConfigJsonKey : Str := str ".dockerconfigjson"

/-- `corev1.DockerConfigKey`. -/
def dockerConfigKey : Str := str ".dockercfg"

/-- `corev1.SecretTypeDockerConfigJson`. -/
def secretTypeDockerConfigJson : Str := str "kubernetes.io/dockerconfigjson"

/-- `corev1.SecretTypeDockercfg`. -/
def secretTypeDockercfg : Str := str "kubernetes.io/dockercfg"

/-- Go map point lookup (`v, ok := m[k]`). -/
def goLookup {α : Type} : List (Str × α) → Str → Option α
  | [], _ => none
  | (k, v) :: rest, key => if k = key then some v else goLookup rest key

/-! ## Registry-key matcher (`findAuthConfig`) -/

/-- The Docker-Hub host test of `findAuthConfig`:
`registryHost == "docker.io" || registryHost == "index.docker.io" ||
strings.HasPrefix(registryHost, "docker.io:") ||
strings.HasPrefix(registryHost, "index.docker.io:")`. -/
def isDockerHubHost (registryHost : Str) : Bool :=
  registryHost == str "docker.io" || registryHost == str "index.docker.io" ||
  (str "docker.io:").isPrefixOf registryHost ||
  (str "index.docker.io:").isPrefixOf registryHost

/-- The `dockerHubKeys` list of `findAuthConfig`. -/
def dockerHubKeys (registryHost : Str) : List Str :=
  [str "https://index.docker.io/v1/", str "index.docker.io", str "docker.io",
   str "https://docker.io", str "https://index.docker.io", registryHost]

/-- `findAuthConfig`: ordered lookup of the registry host under the key
variations used by docker tooling, with the Docker-Hub alias fallback, and a
typed "registry ... not found in auth config" error when nothing matches. -/
def findAuthConfig (auths : AuthMap) (registryHost : Str) : Res DockerAuthConfig :=
  match goLookup auths registryHost with
  | some authConfig => .ok authConfig
  | none =>
  match goLookup auths (str "https://" ++ registryHost) with
  | some authConfig => .ok authConfig
  | none =>
  match goLookup auths (str "http://" ++ registryHost) with
  | some authConfig => .ok authConfig
  | none =>
  match goLookup auths (registryHost ++ str "/v1/") with
  | some authConfig => .ok authConfig
  | none =>
  match goLookup auths (registryHost ++ str "/v2/") with
  | some authConfig => .ok authConfig
  | none =>
  match goLookup auths (str "https://" ++ registryHost ++ str "/v1/") with
  | some authConfig => .ok authConfig
  | none =>
  match goLookup auths (str "https://" ++ registryHost ++ str "/v2/") with
  | some authConfig => .ok authConfig
  | none =>
  match (if isDockerHubHost registryHost then
          (dockerHubKeys registryHost).findSome? (fun k => goLookup auths k)
        else none) with
  | some authConfig => .ok authConfig
  | none =>
      .err (str "registry " ++ registryHost ++ str " not found in auth config")

/-! ## Auth-entry decoder (`extractCredentials`) -/

/-- `extractCredentials`: explicit username/password take precedence; otherwise
the base64 `auth` field is decoded and split at the first colon.  The returned
pair is the byte-level view of the Go `(username, password)` strings (the
caller consumes them byte-wise). -/
def extractCredentials (authConfig : DockerAuthConfig) : Res (List Nat × List Nat) :=
  if authConfig.username ≠ [] ∧ authConfig.password ≠ [] then
    .ok (utf8Bytes authConfig.username, utf8Bytes authConfig.password)
  else if authConfig.auth ≠ [] then
    match decodeBase64 authConfig.auth with
    | .err e => .err (str "failed to decode auth field: " ++ e)
    | .ok decoded =>
      match splitN2Colon decoded with
      | none => .err (str "invalid auth format: expected username:password")
      | some (u, p) => .ok (u, p)
  else .err (str "no credentials found in auth config")

/-! ## Host-reference parser (`extractRegistryHost`) -/

/-- The authority component isolated by `url.Parse("http://" + rest)`:
everything up to the first `/`, `?` or `#`. -/
def authorityOf (rest : Str) : Str :=
  rest.takeWhile (fun c => c != '/' && c != '?' && c != '#')

/-- Userinfo stripping: the host-port part is what follows the last `@` of the
authority. -/
def afterLastAt (authority : Str) : Str :=
  (authority.reverse.takeWhile (fun c => c != '@')).reverse

/-- Split `host:port` at the last colon (`none` when there is no colon). -/
def splitLastColon (hostport : Str) : Option (Str × Str) :=
  if (hostport.reverse.takeWhile (fun c => c != ':')).length = hostport.length then
    none
  else
    some (hostport.take
        (hostport.length - (hostport.reverse.takeWhile (fun c => c != ':')).length - 1),
      (hostport.reverse.takeWhile (fun c => c != ':')).reverse)

/-- The `Hostname()` / `Port()` pair of `url.Parse("http://" + rest)`, in the
fragment of `net/url` the repository exercises: authority up to the first
delimiter, userinfo before the last `@`, optional all-digit port after the
last colon (a non-digit port makes `url.Parse` fail).  Bracketed IPv6 hosts
and percent-escapes are outside the modelled fragment. -/
def urlHostPort (rest : Str) : Res (Str × Str) :=
  match splitLastColon (afterLastAt (authorityOf rest)) with
  | none => .ok (afterLastAt (authorityOf rest), [])
  | some (h, p) =>
      if p.all (fun c => c.isDigit) then .ok (h, p)
      else .err (str "invalid port")

/-- `extractRegistryHost`: requires the literal lowercase `oci://` scheme,
then extracts hostname (and port, when present) from the remainder. -/
def extractRegistryHost (imageURL : Str) : Res Str :=
  if ¬ (str "oci://").isPrefixOf imageURL then
    .err (str "image URL does not have oci:// scheme: " ++ imageURL)
  else
    match urlHostPort (imageURL.drop 6) with
    | .err e => .err (str "failed to parse image URL: " ++ e)
    | .ok (hostname, port) =>
      if hostname = [] then
        .err (str "failed to extract hostname from image URL: " ++ imageURL)
      else if port = [] then .ok hostname
      else .ok (hostname ++ str ":" ++ port)

/-! ## Credential-store parser and resolver -/

/-- `parseDockerConfigJSON`. -/
def parseDockerConfigJSON (data : RawDoc) (registryHost : Str) : Res DockerAuthConfig :=
  match data.asConfigJSON with
  | .err e => .err (str "failed to unmarshal docker config JSON: " ++ e)
  | .ok config => findAuthConfig config.auths registryHost

/-- `parseDockerConfig` (legacy format). -/
def parseDockerConfig (data : RawDoc) (registryHost : Str) : Res DockerAuthConfig :=
  match data.asConfig with
  | .err e => .err (str "failed to unmarshal docker config: " ++ e)
  | .ok config => findAuthConfig config registryHost

/-- The store-parsing stage of `ExtractRegistryCredentials`: prefer the
`.dockerconfigjson` key, fall back to `.dockercfg`, wrapping stage context
around failures exactly as the source does.  (The source's `authConfig == nil`
check after a nil error is unreachable: `findAuthConfig` never returns a nil
config with a nil error.) -/
def lookupAuthConfig (sec : Secret) (registryHost : Str) : Res DockerAuthConfig :=
  match goLookup sec.data dockerConfigJsonKey with
  | some data =>
    match parseDockerConfigJSON data registryHost with
    | .err e => .err (str "failed to parse dockerconfigjson: " ++ e)
    | .ok authConfig => .ok authConfig
  | none =>
    match goLookup sec.data dockerConfigKey with
    | some data =>
      match parseDockerConfig data registryHost with
      | .err e => .err (str "failed to parse dockercfg: " ++ e)
      | .ok authConfig => .ok authConfig
    | none =>
        .err (str "secret does not contain .dockerconfigjson or .dockercfg key")

/-- `ExtractRegistryCredentials`: host extraction, store parsing, credential
extraction, and final base64 encoding of `"username:password"` (byte 58 is the
colon joining the pair). -/
def ExtractRegistryCredentials (secret : Option Secret) (imageURL : Str) : Res Str :=
  match secret with
  | none => .err (str "secret is nil")
  | some sec =>
    match extractRegistryHost imageURL with
    | .err e => .err (str "failed to extract registry host from image URL: " ++ e)
    | .ok registryHost =>
      match lookupAuthConfig sec registryHost with
      | .err e => .err e
      | .ok authConfig =>
        match extractCredentials authConfig with
        | .err e => .err (str "failed to extract credentials: " ++ e)
        | .ok (username, password) =>
            .ok (encodeBase64 (username ++ 58 :: password))

/-! ## Validation state machine (`pkg/imageauthvalidator/validator.go`) -/

def ReasonUnknown : Str := str "Unknown"

def ReasonNotRequired : Str := str "NotRequired"

def ReasonValid : Str := str "Valid"

def ReasonSecretNotFound : Str := str "SecretNotFound"

def ReasonWrongType : Str := str "WrongType"

def ReasonParseError : Str := str "ParseError"

def ReasonRegistryEntryMissing : Str := str "RegistryEntryMissing"

/-- `metal3api.Image`: the image reference and the optional auth secret name. -/
structure Image where
  url : Str
  authSecretName : Option Str
deriving DecidableEq

/-- The slice of a `BareMetalHost` that `Validate` reads: its namespace and
its optional image spec. -/
structure BareMetalHost where
  ns : Str
  image : Option Image
deriving DecidableEq

/-- The `Result` record of the validator. -/
structure Result where
  secret : Option Secret
  valid : Bool
  reason : Str
  message : Str
  ociRelevant : Bool
  credentials : Str
deriving DecidableEq

/-- The initial result value: `&Result{Valid: false, Reason: ReasonUnknown}`. -/
def initResult : Result :=
  { secret := none, valid := false, reason := ReasonUnknown, message := [],
    ociRelevant := false, credentials := [] }

/-- Go `strings.ToLower`, on the ASCII range (Go's unicode case folding never
maps a non-ASCII character onto any character of `oci://`, which is all the
callers compare against). -/
def goToLower (s : Str) : Str := s.map Char.toLower

/-- `isOCI`: case-insensitive scheme check. -/
def isOCI (url : Str) : Bool := (str "oci://").isPrefixOf (goToLower url)

/-- `isAllowedDockerConfigType`. -/
def isAllowedDockerConfigType (t : Str) : Bool :=
  t == secretTypeDockerConfigJson || t == secretTypeDockercfg

/-- Outcome of the secret fetch `v.c.Get(ctx, key, &sec)`, performed by the
external Kubernetes client: the secret, a not-found error, or any other
error. -/
inductive GetResult where
  | found (sec : Secret)
  | notFound
  | failed (e : Str)
deriving DecidableEq

/-- Quoting of a string by the `%q` verb in the messages built by `Validate`
(escaping of exotic characters inside the string is not modelled). -/
def quoted (s : Str) : Str := '"' :: s ++ ['"']

/-- `strings.Contains(s, sub)`. -/
def goContains : Str → Str → Bool
  | [], sub => sub.isPrefixOf []
  | c :: rest, sub => sub.isPrefixOf (c :: rest) || goContains rest sub

theorem goContains_iff (s sub : Str) : goContains s sub = true ↔ sub <:+: s := by
  induction s with
  | nil =>
      simp [goContains, List.infix_nil, List.isPrefixOf_iff_prefix,
        List.prefix_nil]
  | cons c rest ih =>
      simp [goContains, List.infix_cons_iff, List.isPrefixOf_iff_prefix, ih]

/-- `Validate`: the validation state machine.  Returns the `(*Result, error)`
pair; `error` is `none` except when the secret fetch fails for a reason other
than not-found.  Event-recorder emissions do not affect the returned pair and
are not modelled. -/
def Validate (bmh : BareMetalHost) (get : GetResult) : Result × Option Str :=
  match bmh.image with
  | none => ({ initResult with message := str "image URL not set" }, none)
  | some img =>
    if img.url = [] then
      ({ initResult with message := str "image URL not set" }, none)
    else
      let res := { initResult with ociRelevant := isOCI img.url }
      match img.authSecretName with
      | none =>
          ({ res with
               reason := ReasonNotRequired,
               message := str "no per-host auth secret referenced" }, none)
      | some secretName =>
        if secretName = [] then
          ({ res with
               reason := ReasonNotRequired,
               message := str "no per-host auth secret referenced" }, none)
        else
          match get with
          | .notFound =>
              ({ res with
                   reason := ReasonSecretNotFound,
                   message := str "secret " ++ quoted secretName ++
                     str " not found in namespace " ++ quoted bmh.ns }, none)
          | .failed e => (res, some e)
          | .found sec =>
            if ¬ isAllowedDockerConfigType sec.type then
              ({ res with
                   reason := ReasonWrongType,
                   message := str "secret " ++ quoted secretName ++
                     str " has unsupported type " ++ quoted sec.type ++
                     str "; expected " ++ quoted secretTypeDockerConfigJson ++
                     str " or " ++ quoted secretTypeDockercfg }, none)
            else if res.ociRelevant then
              match ExtractRegistryCredentials (some sec) img.url with
              | .err e =>
                if goContains e (str "not found in auth config") then
                  ({ res with
                       reason := ReasonRegistryEntryMissing,
                       message := str "secret " ++ quoted secretName ++
                         str " does not contain credentials for registry in " ++
                         quoted img.url }, none)
                else
                  ({ res with
                       reason := ReasonParseError,
                       message := str "failed to extract credentials from secret " ++
                         quoted secretName ++ str ": " ++ e }, none)
              | .ok credentials =>
                  ({ res with
                       credentials := credentials,
                       secret := some sec,
                       valid := true,
                       reason := ReasonValid,
                       message := str "auth secret present and of a supported type" },
                   none)
            else
              ({ res with
                   secret := some sec,
                   valid := true,
                   reason := ReasonValid,
                   message := str "auth secret present and of a supported type" },
               none)

/-- The seven deterministic key transforms of findAuthConfig, in source order. -/
def ruleKeys (h : Str) : List Str :=
  [h, str "https://" ++ h, str "http://" ++ h, h ++ str "/v1/", h ++ str "/v2/",
   str "https://" ++ h ++ str "/v1/", str "https://" ++ h ++ str "/v2/"]

theorem goLookup_single_some {k c : Str} {e a : DockerAuthConfig}
    (h : goLookup [(k, e)] c = some a) : a = e := by
  simp only [goLookup] at h
  split at h
  · exact (Option.some.inj h).symm
  · exact absurd h (by simp)

theorem goLookup_single_none {k c : Str} {e : DockerAuthConfig}
    (h : goLookup [(k, e)] c = none) : k ≠ c := by
  simp only [goLookup] at h
  intro hkc
  rw [if_pos hkc] at h
  exact absurd h (by simp)

theorem findAuthConfig_single (h k : Str) (e : DockerAuthConfig)
    (hk : k ∈ ruleKeys h ∨ (isDockerHubHost h = true ∧ k ∈ dockerHubKeys h)) :
    findAuthConfig [(k, e)] h = .ok e := by
  rcases hr : findAuthConfig [(k, e)] h with a | m
  · unfold findAuthConfig at hr
    repeat' split at hr
    all_goals try (exact (Res.noConfusion hr))
    all_goals try (rename_i heq; cases hr; rw [goLookup_single_some heq])
    rename_i hsome
    split at hsome
    · obtain ⟨key, hmem, hlook⟩ := List.exists_of_findSome?_eq_some hsome
      cases hr
      rw [goLookup_single_some hlook]
    · exact absurd hsome (by simp)
  · exfalso
    unfold findAuthConfig at hr
    repeat' split at hr
    all_goals try (exact (Res.noConfusion hr))
    rcases hk with hk | ⟨hhub, hk⟩
    · simp only [ruleKeys, List.mem_cons, List.not_mem_nil, or_false] at hk
      rcases hk with hk | hk | hk | hk | hk | hk | hk
      · exact goLookup_single_none (by assumption) hk
      · exact goLookup_single_none (by assumption) hk
      · exact goLookup_single_none (by assumption) hk
      · exact goLookup_single_none (by assumption) hk
      · exact goLookup_single_none (by assumption) hk
      · exact goLookup_single_none (by assumption) hk
      · exact goLookup_single_none (by assumption) hk
    · have hnone : (dockerHubKeys h).findSome? (fun key => goLookup [(k, e)] key) = none := by
        have hif : (if isDockerHubHost h then
            (dockerHubKeys h).findSome? (fun key => goLookup [(k, e)] key)
          else none) = none := by assumption
        rwa [if_pos hhub] at hif
      rw [List.findSome?_eq_none_iff] at hnone
      exact goLookup_single_none (hnone k hk) rfl

theorem findAuthConfig_first_match (auths : AuthMap) (h : Str) (i : Nat)
    (e : DockerAuthConfig) (hi : i < 7)
    (hhit : goLookup auths ((ruleKeys h).getD i []) = some e)
    (hmiss : ∀ j, j < i → goLookup auths ((ruleKeys h).getD j []) = none) :
    findAuthConfig auths h = .ok e := by
  interval_cases i
  · have k0 : goLookup auths h = some e := hhit
    simp only [findAuthConfig, k0]
  · have m0 : goLookup auths h = none := hmiss 0 (by omega)
    have k1 : goLookup auths (str "https://" ++ h) = some e := hhit
    simp only [findAuthConfig, m0, k1]
  · have m0 : goLookup auths h = none := hmiss 0 (by omega)
    have m1 : goLookup auths (str "https://" ++ h) = none := hmiss 1 (by omega)
    have k2 : goLookup auths (str "http://" ++ h) = some e := hhit
    simp only [findAuthConfig, m0, m1, k2]
  · have m0 : goLookup auths h = none := hmiss 0 (by omega)
    have m1 : goLookup auths (str "https://" ++ h) = none := hmiss 1 (by omega)
    have m2 : goLookup auths (str "http://" ++ h) = none := hmiss 2 (by omega)
    have k3 : goLookup auths (h ++ str "/v1/") = some e := hhit
    simp only [findAuthConfig, m0, m1, m2, k3]
  · have m0 : goLookup auths h = none := hmiss 0 (by omega)
    have m1 : goLookup auths (str "https://" ++ h) = none := hmiss 1 (by omega)
    have m2 : goLookup auths (str "http://" ++ h) = none := hmiss 2 (by omega)
    have m3 : goLookup auths (h ++ str "/v1/") = none := hmiss 3 (by omega)
    have k4 : goLookup auths (h ++ str "/v2/") = some e := hhit
    simp only [findAuthConfig, m0, m1, m2, m3, k4]
  · have m0 : goLookup auths h = none := hmiss 0 (by omega)
    have m1 : goLookup auths (str "https://" ++ h) = none := hmiss 1 (by omega)
    have m2 : goLookup auths (str "http://" ++ h) = none := hmiss 2 (by omega)
    have m3 : goLookup auths (h ++ str "/v1/") = none := hmiss 3 (by omega)
    have m4 : goLookup auths (h ++ str "/v2/") = none := hmiss 4 (by omega)
    have k5 : goLookup auths (str "https://" ++ h ++ str "/v1/") = some e := hhit
    simp only [findAuthConfig, m0, m1, m2, m3, m4, k5]
  · have m0 : goLookup auths h = none := hmiss 0 (by omega)
    have m1 : goLookup auths (str "https://" ++ h) = none := hmiss 1 (by omega)
    have m2 : goLookup auths (str "http://" ++ h) = none := hmiss 2 (by omega)
    have m3 : goLookup auths (h ++ str "/v1/") = none := hmiss 3 (by omega)
    have m4 : goLookup auths (h ++ str "/v2/") = none := hmiss 4 (by omega)
    have m5 : goLookup auths (str "https://" ++ h ++ str "/v1/") = none := hmiss 5 (by omega)
    have k6 : goLookup auths (str "https://" ++ h ++ str "/v2/") = some e := hhit
    simp only [findAuthConfig, m0, m1, m2, m3, m4, m5, k6]

/-- Sample auth entries used by concrete witnesses. -/
def entA : DockerAuthConfig :=
  { username := str "alice", password := str "pw1", auth := [], email := [] }

def entB : DockerAuthConfig :=
  { username := str "bob", password := str "pw2", auth := [], email := [] }

/-- Claim C1: for every host string and each of the seven deterministic
key-transform rules, a mapping whose sole key is the transformed host resolves
to that entry; and with several rule-produced keys present, the entry found
under the earliest rule in source order is returned (first full match wins). -/
theorem claim_C1 (h : Str) :
    (∀ k ∈ ruleKeys h, ∀ e : DockerAuthConfig, findAuthConfig [(k, e)] h = .ok e) ∧
    (∀ (auths : AuthMap) (i : Nat) (e : DockerAuthConfig), i < 7 →
      goLookup auths ((ruleKeys h).getD i []) = some e →
      (∀ j, j < i → goLookup auths ((ruleKeys h).getD j []) = none) →
      findAuthConfig auths h = .ok e) := by
  constructor
  · intro k hk e
    exact findAuthConfig_single h k e (Or.inl hk)
  · intro auths i e hi hhit hmiss
    exact findAuthConfig_first_match auths h i e hi hhit hmiss

theorem claim_C1_witness :
    findAuthConfig [(str "https://example.com/v2/", entA)] (str "example.com") = .ok entA ∧
    findAuthConfig [(str "example.com/v1/", entA), (str "https://example.com/v2/", entB)]
      (str "example.com") = .ok entA := by
  constructor
  · exact (claim_C1 (str "example.com")).1 _ (by decide) entA
  · exact (claim_C1 (str "example.com")).2 _ 3 entA (by omega) (by decide)
      (by decide)

/-- Claim C2: for each Docker-Hub query-host spelling (bare or with a trailing
port, with or without the legacy index. prefix) and each of the six documented
alias key forms, a store whose sole key is that alias form resolves for that
query host. -/
theorem claim_C2 (h : Str)
    (hh : h = str "docker.io" ∨ h = str "index.docker.io" ∨
      (∃ p, h = str "docker.io:" ++ p) ∨ (∃ p, h = str "index.docker.io:" ++ p)) :
    ∀ k ∈ dockerHubKeys h, ∀ e : DockerAuthConfig, findAuthConfig [(k, e)] h = .ok e := by
  intro k hk e
  apply findAuthConfig_single
  right
  refine ⟨?_, hk⟩
  rcases hh with rfl | rfl | ⟨p, rfl⟩ | ⟨p, rfl⟩
  · decide
  · decide
  · have hpre : (str "docker.io:").isPrefixOf (str "docker.io:" ++ p) = true := by
      rw [ List.isPrefixOf_iff_prefix]
      exact List.prefix_append _ _
    simp [isDockerHubHost, hpre]
  · have hpre : (str "index.docker.io:").isPrefixOf (str "index.docker.io:" ++ p) = true := by
      rw [ List.isPrefixOf_iff_prefix]
      exact List.prefix_append _ _
    simp [isDockerHubHost, hpre]

theorem claim_C2_witness :
    findAuthConfig [(str "https://index.docker.io/v1/", entA)] (str "docker.io:5000") = .ok entA ∧
    findAuthConfig [(str "index.docker.io", entA)] (str "docker.io") = .ok entA := by
  constructor
  · exact claim_C2 (str "docker.io:5000")
      (Or.inr (Or.inr (Or.inl ⟨str "5000", by decide⟩))) _ (by decide) entA
  · exact claim_C2 (str "docker.io") (Or.inl rfl) _ (by decide) entA

/-- Claim C5: when both explicit username and password are non-empty, the
decoder returns exactly that explicit pair (byte-wise), regardless of any
combined auth field. -/
theorem claim_C5 (a : DockerAuthConfig) (hu : a.username ≠ []) (hp : a.password ≠ []) :
    extractCredentials a = .ok (utf8Bytes a.username, utf8Bytes a.password) := by
  simp only [extractCredentials, if_pos (And.intro hu hp)]

theorem claim_C5_witness :
    extractCredentials
      { username := str "alice", password := str "pw1",
        auth := encodeBase64 (utf8Bytes (str "other") ++ 58 :: utf8Bytes (str "creds")),
        email := [] } =
      .ok (utf8Bytes (str "alice"), utf8Bytes (str "pw1")) :=
  claim_C5 _ (by decide) (by decide)

/-- Claim C7: a non-artifact reference with a declared, existing secret of an
accepted type is reported not artifact-relevant, skips credential resolution,
and still yields a valid result with no credentials and nil error. -/
theorem claim_C7 (ns url name : Str) (sec : Secret)
    (hurl : url ≠ [])
    (hoci : isOCI url = false)
    (hname : name ≠ [])
    (htype : isAllowedDockerConfigType sec.type = true) :
    Validate { ns := ns, image := some { url := url, authSecretName := some name } }
      (.found sec) =
      ({ secret := some sec, valid := true, reason := ReasonValid,
         message := str "auth secret present and of a supported type",
         ociRelevant := false, credentials := [] }, none) := by
  simp [Validate, hurl, hname, htype, hoci, initResult]

theorem claim_C7_witness :
    Validate { ns := str "ns",
               image := some { url := str "https://example.com/image.qcow2",
                               authSecretName := some (str "auth-secret") } }
      (.found { type := secretTypeDockerConfigJson, data := [] }) =
      ({ secret := some { type := secretTypeDockerConfigJson, data := [] },
         valid := true, reason := ReasonValid,
         message := str "auth secret present and of a supported type",
         ociRelevant := false, credentials := [] }, none) :=
  claim_C7 _ _ _ _ (by decide) (by decide) (by decide) (by decide)

/-- Claim C4: Validate returns a non-nil error exactly when a declared secret
fetch fails for a reason other than absence; absence yields a typed
SecretNotFound result with nil error. -/
theorem validate_snd_found (ns url name : Str) (sec : Secret)
    (hu : url ≠ []) (hn : name ≠ []) :
    (Validate { ns := ns, image := some { url := url, authSecretName := some name } }
      (.found sec)).2 = none := by
  simp only [Validate]
  rw [if_neg hu, if_neg hn]
  split
  · rfl
  · split
    · split
      · split
        · rfl
        · rfl
      · rfl
    · rfl

theorem claim_C4 (bmh : BareMetalHost) (get : GetResult) :
    ((Validate bmh get).2 ≠ none ↔
      (∃ img name e, bmh.image = some img ∧ img.url ≠ [] ∧
        img.authSecretName = some name ∧ name ≠ [] ∧ get = .failed e)) ∧
    (∀ img name, bmh.image = some img → img.url ≠ [] →
      img.authSecretName = some name → name ≠ [] → get = .notFound →
      (Validate bmh get).2 = none ∧
      (Validate bmh get).1.reason = ReasonSecretNotFound ∧
      (Validate bmh get).1.valid = false) := by
  obtain ⟨ns, image⟩ := bmh
  cases image with
  | none => simp [Validate]
  | some img =>
    obtain ⟨url, asn⟩ := img
    by_cases hu : url = []
    · constructor
      · simp [Validate, hu]
      · rintro img nm himg h1 - - -
        cases himg
        simp [hu] at h1
    · cases asn with
      | none =>
        constructor
        · simp [Validate, hu]
        · rintro img nm himg - hasn - -
          cases himg
          simp at hasn
      | some name =>
        by_cases hn : name = []
        · constructor
          · simp [Validate, hu, hn]
          · rintro img nm himg - hasn hn2 -
            cases himg
            injection hasn with hh
            rw [← hh] at hn2
            exact absurd hn hn2
        · cases get with
          | notFound =>
            constructor
            · simp [Validate, hu, hn]
            · intro img nm himg hu2 hasn hn2 hget
              simp [Validate, hu, hn, initResult]
          | failed e =>
            constructor
            · constructor
              · intro hne
                exact ⟨_, name, e, rfl, hu, rfl, hn, rfl⟩
              · intro hex
                simp [Validate, hu, hn]
            · intro img nm himg hu2 hasn hn2 hget
              exact GetResult.noConfusion hget
          | found sec =>
            constructor
            · rw [ne_eq, validate_snd_found ns url name sec hu hn]
              simp
            · intro img name2 himg hu2 hasn hn2 hget
              exact GetResult.noConfusion hget

/-- Claim C9: on every nil-error result, credentials are only attached when the
result is valid and artifact-relevant, and a secret handle is only attached
when the result is valid. -/
theorem claim_C9 (bmh : BareMetalHost) (get : GetResult)
    (hnil : (Validate bmh get).2 = none) :
    ((Validate bmh get).1.credentials ≠ [] →
      (Validate bmh get).1.valid = true ∧ (Validate bmh get).1.ociRelevant = true) ∧
    ((Validate bmh get).1.secret ≠ none → (Validate bmh get).1.valid = true) := by
  obtain ⟨ns, image⟩ := bmh
  cases image with
  | none => simp [Validate, initResult]
  | some img =>
    obtain ⟨url, asn⟩ := img
    by_cases hu : url = []
    · simp [Validate, hu, initResult]
    · cases asn with
      | none => simp [Validate, hu, initResult]
      | some name =>
        by_cases hn : name = []
        · simp [Validate, hu, hn, initResult]
        · cases get with
          | notFound => simp [Validate, hu, hn, initResult]
          | failed e => simp [Validate, hu, hn, initResult]
          | found sec =>
            simp only [Validate]
            rw [if_neg hu, if_neg hn]
            split
            · simp [initResult]
            · split
              · split
                · split
                  · simp [initResult]
                  · simp [initResult]
                · simp [initResult]
                  intro hcred
                  assumption
              · simp [initResult]

/-- An auth entry with explicit username and password. -/
def entUP (u p a email : Str) : DockerAuthConfig :=
  { username := u, password := p, auth := a, email := email }

theorem extractCredentials_explicit (a : DockerAuthConfig)
    (hu : a.username ≠ []) (hp : a.password ≠ []) :
    extractCredentials a = .ok (utf8Bytes a.username, utf8Bytes a.password) := by
  simp only [extractCredentials, if_pos (And.intro hu hp)]

theorem bytes_pair_lt (u p : Str) : ∀ b ∈ utf8Bytes u ++ 58 :: utf8Bytes p, b < 256 := by
  intro b hb
  rcases List.mem_append.mp hb with hb | hb
  · exact utf8Bytes_lt u b hb
  · rcases List.mem_cons.mp hb with rfl | hb
    · omega
    · exact utf8Bytes_lt p b hb

/-- Claim C8: the ported scenario — host with port is extracted as
hostname:port, the exact-match rule finds the entry, and the resolved value
base64-decodes to exactly username:password. -/
theorem claim_C8 (u p a email : Str) (hu : u ≠ []) (hp : p ≠ []) :
    extractRegistryHost (str "oci://registry.example.com:5000/repo/image:tag") =
      .ok (str "registry.example.com:5000") ∧
    (∀ doc : RawDoc,
      doc.asConfigJSON = .ok
        { auths := [(str "registry.example.com:5000", entUP u p a email)] } →
      goLookup [(str "registry.example.com:5000", entUP u p a email)]
          (str "registry.example.com:5000") = some (entUP u p a email) ∧
      findAuthConfig [(str "registry.example.com:5000", entUP u p a email)]
          (str "registry.example.com:5000") = .ok (entUP u p a email) ∧
      ExtractRegistryCredentials
          (some { type := secretTypeDockerConfigJson,
                  data := [(dockerConfigJsonKey, doc)] })
          (str "oci://registry.example.com:5000/repo/image:tag") =
        .ok (encodeBase64 (utf8Bytes u ++ 58 :: utf8Bytes p)) ∧
      decodeBase64 (encodeBase64 (utf8Bytes u ++ 58 :: utf8Bytes p)) =
        .ok (utf8Bytes u ++ 58 :: utf8Bytes p)) := by
  have hH : extractRegistryHost (str "oci://registry.example.com:5000/repo/image:tag") =
      .ok (str "registry.example.com:5000") := by decide
  refine ⟨hH, ?_⟩
  intro doc hdoc
  have hlook : goLookup [(str "registry.example.com:5000", entUP u p a email)]
      (str "registry.example.com:5000") = some (entUP u p a email) := by
    simp [goLookup]
  have hfind : findAuthConfig [(str "registry.example.com:5000", entUP u p a email)]
      (str "registry.example.com:5000") = .ok (entUP u p a email) := by
    simp only [findAuthConfig, hlook]
  have hextr : extractCredentials (entUP u p a email) =
      .ok (utf8Bytes u, utf8Bytes p) :=
    extractCredentials_explicit _ hu hp
  refine ⟨hlook, hfind, ?_, decodeBase64_encodeBase64 _ (bytes_pair_lt u p)⟩
  simp [ExtractRegistryCredentials, hH, lookupAuthConfig, goLookup,
    parseDockerConfigJSON, hdoc, hfind, hextr]

theorem encodeBase64_ne_nil (a : Nat) (l : List Nat) : encodeBase64 (a :: l) ≠ [] := by
  unfold encodeBase64
  cases l with
  | nil => simp
  | cons b m => cases m <;> simp

theorem findAuthConfig_exact (auths : AuthMap) (h : Str) (e : DockerAuthConfig)
    (hl : goLookup auths h = some e) : findAuthConfig auths h = .ok e := by
  simp only [findAuthConfig, hl]

/-- The combined-field-only auth entry of claim C6. -/
def entAuthOnly (u p email : Str) : DockerAuthConfig :=
  { username := [], password := [],
    auth := encodeBase64 (utf8Bytes u ++ 58 :: utf8Bytes p), email := email }

/-- Claim C6: round-trip through the combined auth field — for a colon-free
username and an arbitrary password (colons allowed, split happens at the first
colon only), an entry carrying only base64(u:p) decodes to exactly (u, p) and
resolves back to base64(u:p). -/
theorem claim_C6 (u p email : Str) (hu : ':' ∉ u) :
    extractCredentials (entAuthOnly u p email) = .ok (utf8Bytes u, utf8Bytes p) ∧
    (∀ (t url host : Str) (doc : RawDoc),
      extractRegistryHost url = .ok host →
      doc.asConfigJSON = .ok { auths := [(host, entAuthOnly u p email)] } →
      ExtractRegistryCredentials
          (some { type := t, data := [(dockerConfigJsonKey, doc)] }) url =
        .ok (encodeBase64 (utf8Bytes u ++ 58 :: utf8Bytes p))) := by
  have hAne : encodeBase64 (utf8Bytes u ++ 58 :: utf8Bytes p) ≠ [] := by
    cases hcase : utf8Bytes u with
    | nil => rw [List.nil_append]; exact encodeBase64_ne_nil _ _
    | cons c cs => exact encodeBase64_ne_nil _ _
  have hdec := decodeBase64_encodeBase64 (utf8Bytes u ++ 58 :: utf8Bytes p)
    (bytes_pair_lt u p)
  have hsplit := splitN2Colon_append (utf8Bytes u) (utf8Bytes p)
    (utf8Bytes_no_colon u hu)
  have hextr : extractCredentials (entAuthOnly u p email) =
      .ok (utf8Bytes u, utf8Bytes p) := by
    simp [extractCredentials, entAuthOnly, hAne, hdec, hsplit]
  refine ⟨hextr, ?_⟩
  intro t url host doc hhost hdoc
  have hfind : findAuthConfig [(host, entAuthOnly u p email)] host =
      .ok (entAuthOnly u p email) :=
    findAuthConfig_exact _ _ _ (by simp [goLookup])
  simp [ExtractRegistryCredentials, hhost, lookupAuthConfig, goLookup,
    parseDockerConfigJSON, hdoc, hfind, hextr]

theorem findAuthConfig_err {auths : AuthMap} {h m : Str}
    (hr : findAuthConfig auths h = .err m) :
    m = str "registry " ++ h ++ str " not found in auth config" := by
  unfold findAuthConfig at hr
  repeat' split at hr
  all_goals try (exact (Res.noConfusion hr))
  exact (Res.err.inj hr).symm

theorem marker_substr_err_msg (h : Str) :
    str "not found in auth config" <:+:
      str "registry " ++ h ++ str " not found in auth config" := by
  refine ⟨str "registry " ++ h ++ [' '], [], ?_⟩
  have hsp : (' ' :: str "not found in auth config") = str " not found in auth config" := by
    decide
  simp only [List.append_assoc, List.append_nil, List.cons_append, List.nil_append]
  rw [← hsp]

theorem host_substr_err_msg (h : Str) :
    h <:+: str "registry " ++ h ++ str " not found in auth config" :=
  ⟨str "registry ", str " not found in auth config", by simp [List.append_assoc]⟩

theorem splitLastColon_eq {hp a b : Str} (h : splitLastColon hp = some (a, b)) :
    a ++ ':' :: b = hp := by
  unfold splitLastColon at h
  split at h
  case isTrue => exact Option.noConfusion h
  rename_i hlen
  injection h with h
  injection h with ha hb
  have hsplit := List.takeWhile_append_dropWhile (p := fun c => c != ':') (l := hp.reverse)
  have hdne : hp.reverse.dropWhile (fun c => c != ':') ≠ [] := by
    intro hnil
    rw [hnil, List.append_nil] at hsplit
    apply hlen
    rw [hsplit, List.length_reverse]
  obtain ⟨c0, rest2, hdw⟩ := List.exists_cons_of_ne_nil hdne
  have hc0 : c0 = ':' := by
    have hh := List.head?_dropWhile_not (fun c => c != ':') hp.reverse
    rw [hdw] at hh
    simp at hh
    exact hh
  subst hc0
  have hrev : hp.reverse = hp.reverse.takeWhile (fun c => c != ':') ++ ':' :: rest2 := by
    rw [← hdw, hsplit]
  have hp_eq : hp =
      rest2.reverse ++ ':' :: (hp.reverse.takeWhile (fun c => c != ':')).reverse := by
    have h2 := congrArg List.reverse hrev
    rw [List.reverse_reverse, List.reverse_append, List.reverse_cons,
      List.append_assoc, List.singleton_append] at h2
    exact h2
  have hlen3 : rest2.reverse.length =
      hp.length - (hp.reverse.takeWhile (fun c => c != ':')).length - 1 := by
    have h1 := congrArg List.length hrev
    rw [List.length_reverse, List.length_append, List.length_cons] at h1
    rw [List.length_reverse]
    omega
  have htake : hp.take
      (hp.length - (hp.reverse.takeWhile (fun c => c != ':')).length - 1) =
      rest2.reverse := by
    rw [← hlen3]
    conv_lhs => rw [hp_eq]
    exact List.take_left _ _
  rw [← ha, ← hb, htake]
  exact hp_eq.symm

theorem afterLastAt_suffix (a : Str) : afterLastAt a <:+ a := by
  unfold afterLastAt
  have h := List.takeWhile_prefix (p := fun c => c != '@') (l := a.reverse)
  have h2 := List.reverse_suffix.mpr h
  rw [List.reverse_reverse] at h2
  exact h2

theorem authorityOf_prefix_of (r : Str) : authorityOf r <+: r := by
  unfold authorityOf
  exact List.takeWhile_prefix _

theorem urlHostPort_parts {rest hostname port : Str}
    (h : urlHostPort rest = .ok (hostname, port)) :
    hostname ++ ':' :: port = afterLastAt (authorityOf rest) ∨
    (hostname = afterLastAt (authorityOf rest) ∧ port = []) := by
  unfold urlHostPort at h
  split at h
  · right
    injection h with h2
    injection h2 with h3 h4
    exact ⟨h3.symm, h4.symm⟩
  · rename_i a b hsplit
    split at h
    · left
      injection h with h2
      injection h2 with h3 h4
      rw [← h3, ← h4]
      exact splitLastColon_eq hsplit
    · exact Res.noConfusion h

/-- A successfully extracted registry host is a substring of the image URL. -/
theorem extractRegistryHost_substr {url host : Str}
    (h : extractRegistryHost url = .ok host) : host <:+: url := by
  unfold extractRegistryHost at h
  split at h
  · exact Res.noConfusion h
  · have hchain : afterLastAt (authorityOf (url.drop 6)) <:+: url :=
      ((afterLastAt_suffix _).isInfix).trans
        (((authorityOf_prefix_of (url.drop 6)).isInfix).trans
          (List.drop_suffix 6 url).isInfix)
    split at h
    · exact Res.noConfusion h
    · rename_i hostname port hok
      split at h
      · exact Res.noConfusion h
      · rcases urlHostPort_parts hok with hparts | ⟨hparts, hport⟩
        · split at h
          · injection h with h2
            subst h2
            exact (List.IsPrefix.isInfix ⟨':' :: port, hparts⟩).trans hchain
          · injection h with h2
            subst h2
            have hsingle : str ":" ++ port = ':' :: port := rfl
            have hjoin : hostname ++ str ":" ++ port = hostname ++ ':' :: port := by
              rw [List.append_assoc, hsingle]
            rw [hjoin, hparts]
            exact hchain
        · split at h
          · injection h with h2
            subst h2
            rw [hparts]
            exact hchain
          · injection h with h2
            subst h2
            exact absurd hport (by assumption)

theorem isOCI_ne_nil {url : Str} (h : isOCI url = true) : url ≠ [] := by
  intro hnil
  subst hnil
  exact absurd h (by decide)

theorem validate_oci_err_missing (ns url name : Str) (sec : Secret) (e : Str)
    (hn : name ≠ []) (htype : isAllowedDockerConfigType sec.type = true)
    (hoci : isOCI url = true)
    (hext : ExtractRegistryCredentials (some sec) url = .err e)
    (hcont : goContains e (str "not found in auth config") = true) :
    Validate { ns := ns, image := some { url := url, authSecretName := some name } }
      (.found sec) =
      ({ secret := none, valid := false, reason := ReasonRegistryEntryMissing,
         message := str "secret " ++ quoted name ++
           str " does not contain credentials for registry in " ++ quoted url,
         ociRelevant := true, credentials := [] }, none) := by
  have hu : url ≠ [] := isOCI_ne_nil hoci
  simp [Validate, hu, hn, htype, hoci, hext, hcont, initResult]

theorem validate_oci_err_parse (ns url name : Str) (sec : Secret) (e : Str)
    (hn : name ≠ []) (htype : isAllowedDockerConfigType sec.type = true)
    (hoci : isOCI url = true)
    (hext : ExtractRegistryCredentials (some sec) url = .err e)
    (hcont : goContains e (str "not found in auth config") = false) :
    Validate { ns := ns, image := some { url := url, authSecretName := some name } }
      (.found sec) =
      ({ secret := none, valid := false, reason := ReasonParseError,
         message := str "failed to extract credentials from secret " ++
           quoted name ++ str ": " ++ e,
         ociRelevant := true, credentials := [] }, none) := by
  have hu : url ≠ [] := isOCI_ne_nil hoci
  simp [Validate, hu, hn, htype, hoci, hext, hcont, initResult]

theorem goContains_of_substr {s sub : Str} (h : sub <:+: s) :
    goContains s sub = true := (goContains_iff s sub).mpr h

/-- Claim C3: the matcher's miss error carries the queried host and the fixed
marker substring; on an artifact reference with a supported secret whose store
has no key matching the host, Validate returns (nil error) an invalid result
with reason RegistryEntryMissing and a message containing the host; every
other resolver failure (one whose text lacks the marker) yields ParseError. -/
theorem claim_C3 :
    (∀ (auths : AuthMap) (h m : Str), findAuthConfig auths h = .err m →
      h <:+: m ∧ str "not found in auth config" <:+: m) ∧
    (∀ (ns url name host m : Str) (sec : Secret) (doc : RawDoc)
        (cfg : DockerConfigJSON),
      isOCI url = true → name ≠ [] → isAllowedDockerConfigType sec.type = true →
      extractRegistryHost url = .ok host →
      goLookup sec.data dockerConfigJsonKey = some doc →
      doc.asConfigJSON = .ok cfg →
      findAuthConfig cfg.auths host = .err m →
      (Validate { ns := ns, image := some { url := url, authSecretName := some name } }
          (.found sec)).2 = none ∧
      (Validate { ns := ns, image := some { url := url, authSecretName := some name } }
          (.found sec)).1.valid = false ∧
      (Validate { ns := ns, image := some { url := url, authSecretName := some name } }
          (.found sec)).1.reason = ReasonRegistryEntryMissing ∧
      host <:+: (Validate { ns := ns, image := some { url := url, authSecretName := some name } }
          (.found sec)).1.message) ∧
    (∀ (ns url name e : Str) (sec : Secret),
      isOCI url = true → name ≠ [] → isAllowedDockerConfigType sec.type = true →
      ExtractRegistryCredentials (some sec) url = .err e →
      goContains e (str "not found in auth config") = false →
      (Validate { ns := ns, image := some { url := url, authSecretName := some name } }
          (.found sec)).2 = none ∧
      (Validate { ns := ns, image := some { url := url, authSecretName := some name } }
          (.found sec)).1.valid = false ∧
      (Validate { ns := ns, image := some { url := url, authSecretName := some name } }
          (.found sec)).1.reason = ReasonParseError) := by
  refine ⟨?_, ?_, ?_⟩
  · intro auths h m hr
    rw [findAuthConfig_err hr]
    exact ⟨host_substr_err_msg h, marker_substr_err_msg h⟩
  · intro ns url name host m sec doc cfg hoci hn htype hhost hdoc hjson hfind
    have hext : ExtractRegistryCredentials (some sec) url =
        .err (str "failed to parse dockerconfigjson: " ++ m) := by
      simp [ExtractRegistryCredentials, hhost, lookupAuthConfig, hdoc,
        parseDockerConfigJSON, hjson, hfind]
    have hmarker : str "not found in auth config" <:+:
        str "failed to parse dockerconfigjson: " ++ m := by
      have h1 : str "not found in auth config" <:+: m := by
        rw [findAuthConfig_err hfind]
        exact marker_substr_err_msg host
      exact h1.trans ⟨str "failed to parse dockerconfigjson: ", [], by simp⟩
    have hv := validate_oci_err_missing ns url name sec _ hn htype hoci hext
      (goContains_of_substr hmarker)
    rw [hv]
    refine ⟨rfl, rfl, rfl, ?_⟩
    have hurl : url <:+:
        str "secret " ++ quoted name ++
          str " does not contain credentials for registry in " ++ quoted url := by
      refine ⟨str "secret " ++ quoted name ++
        str " does not contain credentials for registry in " ++ ['"'], ['"'], ?_⟩
      simp [quoted, List.append_assoc]
    exact (extractRegistryHost_substr hhost).trans hurl
  · intro ns url name e sec hoci hn htype hext hcont
    have hv := validate_oci_err_parse ns url name sec e hn htype hoci hext hcont
    rw [hv]
    exact ⟨rfl, rfl, rfl⟩

theorem prefix_take_trans {M S u : Str} (h : M <+: S ++ u)
    (hlen : M.length ≤ S.length) : M <+: S :=
  List.prefix_of_prefix_length_le h (List.prefix_append S u) hlen

theorem prefix_take_trans' {M S u : Str} (h : M <+: S ++ u)
    (hlen : S.length ≤ M.length) : S <+: M :=
  List.prefix_of_prefix_length_le (List.prefix_append S u) h hlen

/-- No occurrence of `M` can start inside `P` and continue past it, whatever
follows `P`: every nonempty suffix of `P` shorter than `M` fails to be a
prefix of `M`, and every suffix at least as long as `M` does not start with
`M`. -/
def spanFree (M P : Str) : Bool :=
  P.tails.all (fun S => S.isEmpty ||
    (if S.length < M.length then !(S.isPrefixOf M) else !(M.isPrefixOf S)))

theorem goContains_append_false {M : Str} (P u : Str)
    (hP : spanFree M P = true) (hu : goContains u M = false) :
    goContains (P ++ u) M = false := by
  induction P with
  | nil => simpa using hu
  | cons c rest ih =>
    have hP2 := hP
    unfold spanFree at hP2
    rw [List.tails_cons, List.all_cons] at hP2
    rw [Bool.and_eq_true] at hP2
    obtain ⟨hhead, htail⟩ := hP2
    have hrest : spanFree M rest = true := htail
    rw [List.cons_append, goContains, Bool.or_eq_false_iff]
    refine ⟨?_, ih hrest⟩
    by_contra hbc
    simp only [Bool.not_eq_false, List.isPrefixOf_iff_prefix] at hbc
    rw [← List.cons_append] at hbc
    have hpre : M <+: (c :: rest) ++ u := hbc
    simp only [List.isEmpty_cons, Bool.false_or] at hhead
    by_cases hlen : (c :: rest).length < M.length
    · rw [if_pos hlen] at hhead
      have hSM : (c :: rest) <+: M := prefix_take_trans' hpre (by omega)
      rw [← List.isPrefixOf_iff_prefix] at hSM
      simp [hSM] at hhead
    · rw [if_neg hlen] at hhead
      have hMS : M <+: (c :: rest) := prefix_take_trans hpre (by omega)
      rw [← List.isPrefixOf_iff_prefix] at hMS
      simp [hMS] at hhead

/-- A supported-type secret with no docker-config payload, used by concrete
counterexamples and witnesses. -/
def secEmpty : Secret := { type := secretTypeDockerConfigJson, data := [] }

/-- Claim C10 counterexample: an upper-case `OCI://` reference whose URL text
embeds the registry-missing marker makes the brittle substring check misfire —
the conditions of the claim hold (artifact-relevant, secret present with an
accepted type) yet the reason is RegistryEntryMissing, not ParseError. -/
theorem claim_C10_counterexample :
    isOCI (str "OCI://h/x not found in auth config") = true ∧
    goToLower (str "OCI://") = str "oci://" ∧
    str "OCI://" ≠ str "oci://" ∧
    isAllowedDockerConfigType secEmpty.type = true ∧
    (Validate { ns := str "ns",
                image := some { url := str "OCI://h/x not found in auth config",
                                authSecretName := some (str "creds") } }
      (.found secEmpty)).1.reason = ReasonRegistryEntryMissing ∧
    (Validate { ns := str "ns",
                image := some { url := str "OCI://h/x not found in auth config",
                                authSecretName := some (str "creds") } }
      (.found secEmpty)).1.reason ≠ ReasonParseError := by decide

theorem goToLower_length (s : Str) : (goToLower s).length = s.length := by
  simp [goToLower]

/-- Claim C10 (amended): a reference whose scheme spells `oci://` in any casing
other than exact lowercase is reported artifact-relevant, yet host extraction
always fails, so with a present secret of an accepted type the result is
invalid with nil error and reason ParseError — provided the URL text itself
does not contain the registry-missing marker substring (if it does, the
brittle substring check of the validator misfires and reports
RegistryEntryMissing instead, as the counterexample shows). -/
theorem claim_C10 (ns name pre rest0 : Str) (sec : Secret)
    (hlow : goToLower pre = str "oci://")
    (hne : pre ≠ str "oci://")
    (hn : name ≠ [])
    (htype : isAllowedDockerConfigType sec.type = true)
    (hclean : goContains (pre ++ rest0) (str "not found in auth config") = false) :
    isOCI (pre ++ rest0) = true ∧
    Validate { ns := ns,
               image := some { url := pre ++ rest0, authSecretName := some name } }
      (.found sec) =
      ({ secret := none, valid := false, reason := ReasonParseError,
         message := str "failed to extract credentials from secret " ++
           quoted name ++ str ": " ++
           (str "failed to extract registry host from image URL: " ++
             (str "image URL does not have oci:// scheme: " ++ (pre ++ rest0))),
         ociRelevant := true, credentials := [] }, none) := by
  have hoci : isOCI (pre ++ rest0) = true := by
    unfold isOCI goToLower
    rw [List.map_append]
    rw [ List.isPrefixOf_iff_prefix]
    rw [show List.map Char.toLower pre = str "oci://" from hlow]
    exact List.prefix_append _ _
  have hprelen : pre.length = 6 := by
    have := congrArg List.length hlow
    rw [goToLower_length] at this
    simpa using this
  have hnotpre : (str "oci://").isPrefixOf (pre ++ rest0) = false := by
    by_contra hb
    simp only [Bool.not_eq_false, List.isPrefixOf_iff_prefix] at hb
    have h1 : str "oci://" <+: pre := prefix_take_trans hb (by rw [hprelen]; decide)
    have h2 : str "oci://" = pre := h1.eq_of_length (by rw [hprelen]; decide)
    exact hne h2.symm
  have hext : ExtractRegistryCredentials (some sec) (pre ++ rest0) =
      .err (str "failed to extract registry host from image URL: " ++
        (str "image URL does not have oci:// scheme: " ++ (pre ++ rest0))) := by
    simp [ExtractRegistryCredentials, extractRegistryHost, hnotpre]
  have hcontE : goContains
      (str "failed to extract registry host from image URL: " ++
        (str "image URL does not have oci:// scheme: " ++ (pre ++ rest0)))
      (str "not found in auth config") = false := by
    rw [← List.append_assoc]
    exact goContains_append_false _ _ (by decide) hclean
  exact ⟨hoci, validate_oci_err_parse ns (pre ++ rest0) name sec _ hn htype hoci
    hext hcontE⟩

/-! ## Concrete instances for witnesses -/

def imgW : Image := { url := str "oci://example.com/img", authSecretName := some (str "creds") }

def bmhW : BareMetalHost := { ns := str "metal", image := some imgW }

def docOther : RawDoc :=
  { asConfigJSON := .ok { auths := [(str "other.example.com", entA)] },
    asConfig := .err (str "not a dockercfg document") }

def secOther : Secret :=
  { type := secretTypeDockerConfigJson, data := [(dockerConfigJsonKey, docOther)] }

def docBad : RawDoc :=
  { asConfigJSON := .err (str "invalid character"),
    asConfig := .err (str "invalid character") }

def secBad : Secret :=
  { type := secretTypeDockerConfigJson, data := [(dockerConfigJsonKey, docBad)] }

def docC6 : RawDoc :=
  { asConfigJSON := .ok
      { auths := [(str "example.com", entAuthOnly (str "user") (str "pa:ss") [])] },
    asConfig := .err (str "not a dockercfg document") }

def docC8 : RawDoc :=
  { asConfigJSON := .ok
      { auths := [(str "registry.example.com:5000",
          entUP (str "user") (str "pass") [] [])] },
    asConfig := .err (str "not a dockercfg document") }

theorem claim_C3_witness :
    (str "example.com" <:+: str "registry example.com not found in auth config" ∧
      str "not found in auth config" <:+:
        str "registry example.com not found in auth config") ∧
    ((Validate { ns := str "metal",
                 image := some { url := str "oci://example.com/img",
                                 authSecretName := some (str "creds") } }
        (.found secOther)).1.reason = ReasonRegistryEntryMissing ∧
      str "example.com" <:+:
        (Validate { ns := str "metal",
                    image := some { url := str "oci://example.com/img",
                                    authSecretName := some (str "creds") } }
          (.found secOther)).1.message) ∧
    ((Validate { ns := str "metal",
                 image := some { url := str "oci://example.com/img",
                                 authSecretName := some (str "creds") } }
        (.found secBad)).2 = none ∧
      (Validate { ns := str "metal",
                  image := some { url := str "oci://example.com/img",
                                  authSecretName := some (str "creds") } }
        (.found secBad)).1.reason = ReasonParseError) := by
  refine ⟨?_, ?_, ?_⟩
  · have h := claim_C3.1 [] (str "example.com")
      (str "registry example.com not found in auth config") (by decide)
    exact h
  · have h := claim_C3.2.1 (str "metal") (str "oci://example.com/img")
      (str "creds") (str "example.com")
      (str "registry example.com not found in auth config") secOther docOther
      { auths := [(str "other.example.com", entA)] }
      (by decide) (by decide) (by decide) (by decide) (by decide) rfl (by decide)
    exact ⟨h.2.2.1, h.2.2.2⟩
  · have h := claim_C3.2.2 (str "metal") (str "oci://example.com/img")
      (str "creds")
      (str "failed to parse dockerconfigjson: failed to unmarshal docker config JSON: invalid character")
      secBad (by decide) (by decide) (by decide) (by decide) (by decide)
    exact ⟨h.1, h.2.2⟩

theorem claim_C4_witness :
    (Validate bmhW (.failed (str "connection refused"))).2 ≠ none ∧
    ((Validate bmhW .notFound).2 = none ∧
      (Validate bmhW .notFound).1.reason = ReasonSecretNotFound ∧
      (Validate bmhW .notFound).1.valid = false) := by
  constructor
  · exact (claim_C4 bmhW (.failed (str "connection refused"))).1.mpr
      ⟨imgW, str "creds", str "connection refused", rfl, by decide, rfl, by decide, rfl⟩
  · exact (claim_C4 bmhW .notFound).2 imgW (str "creds") rfl (by decide) rfl
      (by decide) rfl

theorem claim_C6_witness :
    extractCredentials (entAuthOnly (str "user") (str "pa:ss") []) =
      .ok (utf8Bytes (str "user"), utf8Bytes (str "pa:ss")) ∧
    ExtractRegistryCredentials
        (some { type := secretTypeDockerConfigJson,
                data := [(dockerConfigJsonKey, docC6)] })
        (str "oci://example.com/img") =
      .ok (encodeBase64 (utf8Bytes (str "user") ++ 58 :: utf8Bytes (str "pa:ss"))) := by
  have h := claim_C6 (str "user") (str "pa:ss") [] (by decide)
  exact ⟨h.1, h.2 secretTypeDockerConfigJson (str "oci://example.com/img")
    (str "example.com") docC6 (by decide) rfl⟩

theorem claim_C8_witness :
    extractRegistryHost (str "oci://registry.example.com:5000/repo/image:tag") =
      .ok (str "registry.example.com:5000") ∧
    ExtractRegistryCredentials
        (some { type := secretTypeDockerConfigJson,
                data := [(dockerConfigJsonKey, docC8)] })
        (str "oci://registry.example.com:5000/repo/image:tag") =
      .ok (encodeBase64 (utf8Bytes (str "user") ++ 58 :: utf8Bytes (str "pass"))) ∧
    decodeBase64 (encodeBase64 (utf8Bytes (str "user") ++ 58 :: utf8Bytes (str "pass"))) =
      .ok (utf8Bytes (str "user") ++ 58 :: utf8Bytes (str "pass")) := by
  have h := claim_C8 (str "user") (str "pass") [] [] (by decide) (by decide)
  have h2 := h.2 docC8 rfl
  exact ⟨h.1, h2.2.2.1, h2.2.2.2⟩

theorem claim_C9_witness :
    ((Validate bmhW (.found secEmpty)).1.credentials ≠ [] →
      (Validate bmhW (.found secEmpty)).1.valid = true ∧
      (Validate bmhW (.found secEmpty)).1.ociRelevant = true) ∧
    ((Validate bmhW (.found secEmpty)).1.secret ≠ none →
      (Validate bmhW (.found secEmpty)).1.valid = true) :=
  claim_C9 bmhW (.found secEmpty) (by decide)

theorem claim_C10_witness :
    isOCI (str "OCI://" ++ str "registry.example.com/img") = true ∧
    Validate { ns := str "metal",
               image := some { url := str "OCI://" ++ str "registry.example.com/img",
                               authSecretName := some (str "creds") } }
      (.found secEmpty) =
      ({ secret := none, valid := false, reason := ReasonParseError,
         message := str "failed to extract credentials from secret " ++
           quoted (str "creds") ++ str ": " ++
           (str "failed to extract registry host from image URL: " ++
             (str "image URL does not have oci:// scheme: " ++
               (str "OCI://" ++ str "registry.example.com/img"))),
         ociRelevant := true, credentials := [] }, none) :=
  claim_C10 (str "metal") (str "creds") (str "OCI://")
    (str "registry.example.com/img") secEmpty (by decide) (by decide) (by decide)
    (by decide) (by decide)
